import Mathlib

/-!
# Verification of the strong/weak reference-counting subsystem

Shallow embedding of `src/smart-ptrs/shared/shared.h` and
`src/smart-ptrs/shared-from-this/weak.h`.

The C++ code manages a heap-allocated control block
(`ControlBlockWithPtr` / `ControlBlockOwning`, whose counter logic is
line-for-line identical) holding a strong counter `ref_counter_` and a weak
counter `weak_ref_counter_`.  `SharedPtr` and `WeakPtr` each hold a pair
`(block_, observer_)` of raw pointers.  We embed:

* the control block as a structure over `Nat` counters, with a ghost
  `events` list recording the two destruction side effects of the source
  (`delete ptr_` — payload destruction — and `delete this` — block
  destruction), in the order they happen;
* pointer-typed fields as `Option Addr` with `Addr := Nat`
  (`none` = `nullptr`);
* the block heap as a function `Addr → ControlBlockWithPtr`, and each
  handle operation as a pure function threading the heap.

Counters are `size_t` in the source; the source documents that decrements
are only called by handles that previously incremented (underflow is a
caller-enforced precondition, not runtime-checked), and every theorem
below either supplies that precondition or works inside well-formed
traces, so counter arithmetic stays in `Nat` without wraparound.
-/

/-- The two destruction side effects a control block can perform:
`payloadFree` models `delete ptr_` (resp. the in-place payload teardown of
the owning variant), `blockFree` models `delete this`. -/
inductive Ev where
  | payloadFree : Ev
  | blockFree : Ev
deriving DecidableEq, Repr

/-- Addresses: payload pointers and control-block pointers. -/
abbrev Addr := Nat

/-- State of one control block, from `ControlBlockWithPtr` (shared.h lines
23–63): the stored payload pointer `ptr_`, the strong counter
`ref_counter_`, the weak counter `weak_ref_counter_`, plus the ghost
`events` history of destruction effects this block has performed.
`ControlBlockOwning` (lines 66–110) has verbatim-identical counter code and
is represented by the same structure, with `ptr_` the address of its inline
buffer. -/
structure ControlBlockWithPtr where
  ptr_ : Option Addr
  ref_counter_ : Nat
  weak_ref_counter_ : Nat
  events : List Ev
deriving DecidableEq, Repr

/-- Alias documenting that the single-allocation variant
(`ControlBlockOwning`, shared.h lines 66–110) shares the counter semantics
of `ControlBlockWithPtr` exactly. -/
abbrev ControlBlockOwning := ControlBlockWithPtr

/-- `ControlBlockWithPtr(Y* ptr) : ptr_(ptr), ref_counter_(0),
weak_ref_counter_(0)` (shared.h line 25). -/
def ControlBlockWithPtr.init (p : Option Addr) : ControlBlockWithPtr :=
  ⟨p, 0, 0, []⟩

/-- `IncrementRefCounter` (shared.h lines 28–31):
`++ref_counter_; ++weak_ref_counter_;`. -/
def ControlBlockWithPtr.IncrementRefCounter (b : ControlBlockWithPtr) : ControlBlockWithPtr :=
  { b with ref_counter_ := b.ref_counter_ + 1, weak_ref_counter_ := b.weak_ref_counter_ + 1 }

/-- `DecrementRefCounter` (shared.h lines 32–43): decrement both counters;
if the strong counter reached zero, bump the weak counter by one extra
(the reentrancy guard), destroy the payload, drop the extra; finally if
the weak counter is zero, destroy the block. -/
def ControlBlockWithPtr.DecrementRefCounter (b : ControlBlockWithPtr) : ControlBlockWithPtr :=
  let b1 : ControlBlockWithPtr :=
    { b with ref_counter_ := b.ref_counter_ - 1, weak_ref_counter_ := b.weak_ref_counter_ - 1 }
  let b2 : ControlBlockWithPtr :=
    if b1.ref_counter_ = 0 then
      let g1 := { b1 with weak_ref_counter_ := b1.weak_ref_counter_ + 1 }
      let g2 := { g1 with events := g1.events ++ [Ev.payloadFree] }
      { g2 with weak_ref_counter_ := g2.weak_ref_counter_ - 1 }
    else b1
  if b2.weak_ref_counter_ = 0 then { b2 with events := b2.events ++ [Ev.blockFree] } else b2

/-- `IncrementWeakRefCounter` (shared.h lines 45–47). -/
def ControlBlockWithPtr.IncrementWeakRefCounter (b : ControlBlockWithPtr) : ControlBlockWithPtr :=
  { b with weak_ref_counter_ := b.weak_ref_counter_ + 1 }

/-- `DecrementWeakRefCounter` (shared.h lines 48–53): decrement the weak
counter; if it reached zero, destroy the block. -/
def ControlBlockWithPtr.DecrementWeakRefCounter (b : ControlBlockWithPtr) : ControlBlockWithPtr :=
  let b1 := { b with weak_ref_counter_ := b.weak_ref_counter_ - 1 }
  if b1.weak_ref_counter_ = 0 then { b1 with events := b1.events ++ [Ev.blockFree] } else b1

/-- `GetRefCount` (shared.h lines 55–57). -/
def ControlBlockWithPtr.GetRefCount (b : ControlBlockWithPtr) : Nat :=
  b.ref_counter_

/-- `k` successive `DecrementWeakRefCounter` calls: the weak-handle
destructions the payload destructor itself performs (self-reference case,
e.g. a `~WeakPtr` of an embedded `weak_this_` running inside
`delete ptr_`). -/
def ControlBlockWithPtr.runWeakDecs : Nat → ControlBlockWithPtr → ControlBlockWithPtr
  | 0, b => b
  | k + 1, b => ControlBlockWithPtr.runWeakDecs k b.DecrementWeakRefCounter

/-- `DecrementRefCounter` when the payload destructor (`delete ptr_`,
shared.h line 37) itself destroys `k` weak handles targeting this same
block: identical to `DecrementRefCounter` except that the `k` weak
decrements run inside the teardown, between the guard increment (line 36)
and the guard decrement (line 38). -/
def ControlBlockWithPtr.DecrementRefCounterReentrant (k : Nat) (b : ControlBlockWithPtr) :
    ControlBlockWithPtr :=
  let b1 : ControlBlockWithPtr :=
    { b with ref_counter_ := b.ref_counter_ - 1, weak_ref_counter_ := b.weak_ref_counter_ - 1 }
  let b2 : ControlBlockWithPtr :=
    if b1.ref_counter_ = 0 then
      let g1 := { b1 with weak_ref_counter_ := b1.weak_ref_counter_ + 1 }
      let g1a := ControlBlockWithPtr.runWeakDecs k g1
      let g2 := { g1a with events := g1a.events ++ [Ev.payloadFree] }
      { g2 with weak_ref_counter_ := g2.weak_ref_counter_ - 1 }
    else b1
  if b2.weak_ref_counter_ = 0 then { b2 with events := b2.events ++ [Ev.blockFree] } else b2

/-!
## Single-block trace model

All handle operations that share one control block, abstracted to their
effect on that block.  `liveStrong` / `liveWeak` are the ghost numbers of
live (non-empty) strong / weak handles referencing the block.
-/

/-- Ghost system state: one control block plus the number of live strong
and weak handles referencing it. -/
structure SysState where
  liveStrong : Nat
  liveWeak : Nat
  blk : ControlBlockWithPtr
deriving DecidableEq, Repr

/-- The handle operations on one shared control block.

* `copyStrong` — copy-construct a strong handle from a live one
  (shared.h lines 133–144): `IncrementRefCounter`.
* `moveStrong` — move-construct a strong handle from a live one
  (lines 146–154): no counter traffic.
* `assignStrong` — assign one live strong handle on this block to another
  (lines 182–204, by-value parameter): the call-site copy increments, the
  old value decrements, the adopted value increments, the parameter's
  destructor decrements.
* `resetStrong` — `Reset()` (lines 218–220) on a live strong handle, i.e.
  assignment from an empty handle: one `DecrementRefCounter`; the handle
  stays alive but empty, so it stops counting as live on this block.
* `destroyStrong` — `~SharedPtr` (lines 209–213): `DecrementRefCounter`.
* `promoteWeak` — construct a strong handle from a live weak handle whose
  block is not expired (lines 167–176): `IncrementRefCounter`.
* `createWeak` — demote a live strong handle (weak.h lines 41–45) or copy
  a live weak handle (weak.h lines 17–27): `IncrementWeakRefCounter`.
* `destroyWeak` — `~WeakPtr` (weak.h lines 77–81):
  `DecrementWeakRefCounter`. -/
inductive HOp where
  | copyStrong : HOp
  | moveStrong : HOp
  | assignStrong : HOp
  | resetStrong : HOp
  | destroyStrong : HOp
  | promoteWeak : HOp
  | createWeak : HOp
  | destroyWeak : HOp
deriving DecidableEq, Repr

/-- Effect of one handle operation on the system state. -/
def hstep : HOp → SysState → SysState
  | HOp.copyStrong, s =>
    ⟨s.liveStrong + 1, s.liveWeak, s.blk.IncrementRefCounter⟩
  | HOp.moveStrong, s => s
  | HOp.assignStrong, s =>
    ⟨s.liveStrong, s.liveWeak,
      (((s.blk.IncrementRefCounter).DecrementRefCounter).IncrementRefCounter).DecrementRefCounter⟩
  | HOp.resetStrong, s =>
    ⟨s.liveStrong - 1, s.liveWeak, s.blk.DecrementRefCounter⟩
  | HOp.destroyStrong, s =>
    ⟨s.liveStrong - 1, s.liveWeak, s.blk.DecrementRefCounter⟩
  | HOp.promoteWeak, s =>
    ⟨s.liveStrong + 1, s.liveWeak, s.blk.IncrementRefCounter⟩
  | HOp.createWeak, s =>
    ⟨s.liveStrong, s.liveWeak + 1, s.blk.IncrementWeakRefCounter⟩
  | HOp.destroyWeak, s =>
    ⟨s.liveStrong, s.liveWeak - 1, s.blk.DecrementWeakRefCounter⟩

/-- Well-formedness of one operation: each operation needs a live handle
to act on.  `promoteWeak` additionally needs a live strong handle, which
by the counter invariant is exactly `!Expired()` (the source throws
otherwise). -/
def wfOp (op : HOp) (s : SysState) : Bool :=
  match op with
  | HOp.copyStrong => decide (1 ≤ s.liveStrong)
  | HOp.moveStrong => decide (1 ≤ s.liveStrong)
  | HOp.assignStrong => decide (1 ≤ s.liveStrong)
  | HOp.resetStrong => decide (1 ≤ s.liveStrong)
  | HOp.destroyStrong => decide (1 ≤ s.liveStrong)
  | HOp.promoteWeak => decide (1 ≤ s.liveWeak) && decide (1 ≤ s.liveStrong)
  | HOp.createWeak => decide (1 ≤ s.liveStrong + s.liveWeak)
  | HOp.destroyWeak => decide (1 ≤ s.liveWeak)

/-- A whole trace is well formed when every step is. -/
def wfTrace : SysState → List HOp → Bool
  | _, [] => true
  | s, op :: l => wfOp op s && wfTrace (hstep op s) l

/-- Run a trace of handle operations. -/
def runTrace : SysState → List HOp → SysState
  | s, [] => s
  | s, op :: l => runTrace (hstep op s) l

/-- The state right after the first strong handle to a block is created
(`SharedPtr(Y* ptr)`, shared.h lines 123–131: fresh block, one
`IncrementRefCounter`). -/
def initState (p : Option Addr) : SysState :=
  ⟨1, 0, (ControlBlockWithPtr.init p).IncrementRefCounter⟩

/-- The reachable-state invariant of the trace model: the strong counter
counts the live strong handles, the weak counter counts live weak handles
plus one per live strong handle, and the destruction history is empty
until the last strong handle dies (payload freed) and then until the last
handle of either kind dies (block freed). -/
def ReachInv (s : SysState) : Prop :=
  s.blk.ref_counter_ = s.liveStrong
  ∧ s.blk.weak_ref_counter_ = s.liveStrong + s.liveWeak
  ∧ s.blk.events =
      (if s.liveStrong = 0 then [Ev.payloadFree] else [])
        ++ (if s.liveStrong + s.liveWeak = 0 then [Ev.blockFree] else [])

/-- Closed form of `DecrementRefCounter` on explicit fields. -/
theorem ControlBlockWithPtr.DecrementRefCounter_eq (p : Option Addr) (r w : Nat) (ev : List Ev) :
    ControlBlockWithPtr.DecrementRefCounter ⟨p, r, w, ev⟩ =
      if r - 1 = 0 then
        (if w - 1 = 0 then
          ⟨p, r - 1, w - 1, (ev ++ [Ev.payloadFree]) ++ [Ev.blockFree]⟩
         else ⟨p, r - 1, w - 1, ev ++ [Ev.payloadFree]⟩)
      else
        (if w - 1 = 0 then ⟨p, r - 1, w - 1, ev ++ [Ev.blockFree]⟩
         else ⟨p, r - 1, w - 1, ev⟩) := by
  by_cases h1 : r - 1 = 0 <;> by_cases h2 : w - 1 = 0 <;>
    simp [ControlBlockWithPtr.DecrementRefCounter, h1, h2]

/-- Closed form of `DecrementWeakRefCounter` on explicit fields. -/
theorem ControlBlockWithPtr.DecrementWeakRefCounter_eq (p : Option Addr) (r w : Nat)
    (ev : List Ev) :
    ControlBlockWithPtr.DecrementWeakRefCounter ⟨p, r, w, ev⟩ =
      if w - 1 = 0 then ⟨p, r, w - 1, ev ++ [Ev.blockFree]⟩ else ⟨p, r, w - 1, ev⟩ := by
  by_cases h2 : w - 1 = 0 <;> simp [ControlBlockWithPtr.DecrementWeakRefCounter, h2]

/-- Introduction rule for `ReachInv` on explicit fields. -/
theorem reachInv_intro {ls lw : Nat} {p : Option Addr} {r w : Nat} {ev : List Ev}
    (h1 : r = ls) (h2 : w = ls + lw)
    (h3 : ev = (if ls = 0 then [Ev.payloadFree] else [])
        ++ (if ls + lw = 0 then [Ev.blockFree] else [])) :
    ReachInv ⟨ls, lw, ⟨p, r, w, ev⟩⟩ :=
  ⟨h1, h2, h3⟩

/-- A `DecrementRefCounter` coming from the destruction or reset of a live
strong handle preserves the invariant. -/
theorem reachInv_decStrong (lw : Nat) (p : Option Addr) (r : Nat)
    (hr : 1 ≤ r) :
    ReachInv ⟨r - 1, lw, ControlBlockWithPtr.DecrementRefCounter ⟨p, r, r + lw, []⟩⟩ := by
  rw [ControlBlockWithPtr.DecrementRefCounter_eq]
  split_ifs with hA hB hB
  · refine reachInv_intro rfl (by omega) ?_
    have e1 : r - 1 = 0 := hA
    have e2 : r - 1 + lw = 0 := by omega
    have e3 : lw = 0 := by omega
    simp [e1, e2, e3]
  · refine reachInv_intro rfl (by omega) ?_
    have e1 : r - 1 = 0 := hA
    have e2 : ¬r - 1 + lw = 0 := by omega
    have e3 : ¬lw = 0 := by omega
    simp [e1, e2, e3]
  · exact absurd hB (by omega)
  · refine reachInv_intro rfl (by omega) ?_
    have e1 : ¬r - 1 = 0 := hA
    have e2 : ¬r - 1 + lw = 0 := by omega
    simp [e1, e2]

/-- Every well-formed step preserves the reachable-state invariant. -/
theorem reachInv_hstep (op : HOp) (s : SysState) (hInv : ReachInv s) (hwf : wfOp op s = true) :
    ReachInv (hstep op s) := by
  obtain ⟨ls, lw, p, r, w, ev⟩ := s
  obtain ⟨h1, h2, h3⟩ := hInv
  simp only at h1 h2 h3
  subst h1
  subst h2
  cases op
  case copyStrong =>
    simp only [wfOp, decide_eq_true_eq] at hwf
    simp only [hstep]
    show ReachInv ⟨r + 1, lw, ⟨p, r + 1, r + lw + 1, ev⟩⟩
    refine reachInv_intro rfl (by omega) ?_
    rw [h3]
    have e1 : ¬r = 0 := by omega
    have e2 : ¬r + lw = 0 := by omega
    have e3 : ¬r + 1 = 0 := by omega
    have e4 : ¬r + 1 + lw = 0 := by omega
    simp [e1, e2, e3, e4]
  case moveStrong =>
    exact ⟨rfl, rfl, h3⟩
  case assignStrong =>
    simp only [wfOp, decide_eq_true_eq] at hwf
    have hev : ev = [] := by
      rw [h3]
      have e1 : ¬r = 0 := by omega
      have e2 : ¬r + lw = 0 := by omega
      simp [e1, e2]
    subst hev
    have e1 : ControlBlockWithPtr.IncrementRefCounter ⟨p, r, r + lw, []⟩
        = ⟨p, r + 1, r + lw + 1, []⟩ := rfl
    have e2 : ControlBlockWithPtr.DecrementRefCounter ⟨p, r + 1, r + lw + 1, []⟩
        = ⟨p, r, r + lw, []⟩ := by
      rw [ControlBlockWithPtr.DecrementRefCounter_eq]
      have c1 : r + 1 - 1 = r := by omega
      have c2 : r + lw + 1 - 1 = r + lw := by omega
      rw [c1, c2]
      have d1 : ¬r = 0 := by omega
      have d2 : ¬r + lw = 0 := by omega
      rw [if_neg d1, if_neg d2]
    simp only [hstep]
    rw [e1, e2, e1, e2]
    refine reachInv_intro rfl rfl ?_
    have d1 : ¬r = 0 := by omega
    have d2 : ¬r + lw = 0 := by omega
    simp [d1, d2]
  case resetStrong =>
    simp only [wfOp, decide_eq_true_eq] at hwf
    have hev : ev = [] := by
      rw [h3]
      have e1 : ¬r = 0 := by omega
      have e2 : ¬r + lw = 0 := by omega
      simp [e1, e2]
    subst hev
    simp only [hstep]
    exact reachInv_decStrong lw p r hwf
  case destroyStrong =>
    simp only [wfOp, decide_eq_true_eq] at hwf
    have hev : ev = [] := by
      rw [h3]
      have e1 : ¬r = 0 := by omega
      have e2 : ¬r + lw = 0 := by omega
      simp [e1, e2]
    subst hev
    simp only [hstep]
    exact reachInv_decStrong lw p r hwf
  case promoteWeak =>
    simp only [wfOp, decide_eq_true_eq, Bool.and_eq_true] at hwf
    simp only [hstep]
    show ReachInv ⟨r + 1, lw, ⟨p, r + 1, r + lw + 1, ev⟩⟩
    refine reachInv_intro rfl (by omega) ?_
    rw [h3]
    have e1 : ¬r = 0 := by omega
    have e2 : ¬r + lw = 0 := by omega
    have e3 : ¬r + 1 = 0 := by omega
    have e4 : ¬r + 1 + lw = 0 := by omega
    simp [e1, e2, e3, e4]
  case createWeak =>
    simp only [wfOp, decide_eq_true_eq] at hwf
    simp only [hstep]
    show ReachInv ⟨r, lw + 1, ⟨p, r, r + lw + 1, ev⟩⟩
    refine reachInv_intro rfl (by omega) ?_
    rw [h3]
    have e2 : ¬r + lw = 0 := by omega
    have e3 : ¬r + (lw + 1) = 0 := by omega
    simp [e2, e3]
  case destroyWeak =>
    simp only [wfOp, decide_eq_true_eq] at hwf
    simp only [hstep]
    rw [ControlBlockWithPtr.DecrementWeakRefCounter_eq]
    split_ifs with hA
    · have hr0 : r = 0 := by omega
      have hlw : lw = 1 := by omega
      subst hr0
      subst hlw
      refine reachInv_intro rfl (by omega) ?_
      rw [h3]
      simp
    · refine reachInv_intro rfl (by omega) ?_
      rw [h3]
      have e2 : ¬r + lw = 0 := by omega
      have e3 : ¬r + (lw - 1) = 0 := by omega
      simp [e2, e3]

/-- The invariant holds along every well-formed trace. -/
theorem reachInv_runTrace (l : List HOp) (s : SysState) (hInv : ReachInv s)
    (hwf : wfTrace s l = true) : ReachInv (runTrace s l) := by
  induction l generalizing s with
  | nil => exact hInv
  | cons op t ih =>
    rw [wfTrace, Bool.and_eq_true] at hwf
    exact ih (hstep op s) (reachInv_hstep op s hInv hwf.1) hwf.2

/-- The invariant holds at the creation of the first strong handle. -/
theorem reachInv_initState (p : Option Addr) : ReachInv (initState p) :=
  ⟨rfl, rfl, rfl⟩

/-- `runWeakDecs` below the weak counter: as long as fewer decrements run
than the current weak count, the counter never reaches zero, so no block
destruction fires. -/
theorem runWeakDecs_eq (k : Nat) (p : Option Addr) (r w : Nat) (ev : List Ev)
    (hk : k < w) :
    ControlBlockWithPtr.runWeakDecs k ⟨p, r, w, ev⟩ = ⟨p, r, w - k, ev⟩ := by
  induction k generalizing w with
  | zero => rfl
  | succ n ih =>
    rw [ControlBlockWithPtr.runWeakDecs]
    rw [show (⟨p, r, w, ev⟩ : ControlBlockWithPtr).DecrementWeakRefCounter
        = ControlBlockWithPtr.DecrementWeakRefCounter ⟨p, r, w, ev⟩ from rfl]
    rw [ControlBlockWithPtr.DecrementWeakRefCounter_eq]
    have hne : ¬w - 1 = 0 := by omega
    rw [if_neg hne]
    rw [ih (w - 1) (by omega)]
    have : w - 1 - n = w - (n + 1) := by omega
    rw [this]

/-- Closed form of the reentrant strong decrement for the self-reference
scenario: one remaining strong handle, `w` other weak references, and a
payload destructor that itself destroys `k ≤ w` weak handles to this
block.  The payload is destroyed exactly once, no block destruction
happens during the teardown (the guard keeps the weak counter at least 1),
and the block is destroyed afterwards exactly when no weak reference is
left. -/
theorem DecrementRefCounterReentrant_eq (k w : Nat) (p : Option Addr) (ev : List Ev)
    (hk : k ≤ w) :
    ControlBlockWithPtr.DecrementRefCounterReentrant k ⟨p, 1, 1 + w, ev⟩ =
      if w - k = 0 then ⟨p, 0, 0, (ev ++ [Ev.payloadFree]) ++ [Ev.blockFree]⟩
      else ⟨p, 0, w - k, ev ++ [Ev.payloadFree]⟩ := by
  simp only [ControlBlockWithPtr.DecrementRefCounterReentrant]
  have h10 : (1 : Nat) - 1 = 0 := rfl
  have hw1 : 1 + w - 1 = w := by omega
  simp only [h10, hw1, if_pos rfl]
  rw [runWeakDecs_eq k p 0 (w + 1) ev (by omega)]
  have hcancel : w + 1 - k - 1 = w - k := by omega
  simp only [hcancel]
  by_cases hz : w - k = 0 <;> simp [hz]

/-!
## Heap model of the handle API

Handles are pairs `(block_, observer_)` of nullable pointers; the heap of
control blocks is a total function `Addr → ControlBlockWithPtr` (handles
only ever dereference addresses they were given by an allocation).  Each
operation is the literal translation of the corresponding member of
`SharedPtr` (shared.h) / `WeakPtr` (weak.h), threading the heap.
-/

/-- The heap of control blocks. -/
abbrev BlockHeap := Addr → ControlBlockWithPtr

/-- Update the heap at one address. -/
def hset (h : BlockHeap) (a : Addr) (b : ControlBlockWithPtr) : BlockHeap :=
  fun x => if x = a then b else h x

/-- `block_->IncrementRefCounter()` on the block at `a`. -/
def hIncRef (h : BlockHeap) (a : Addr) : BlockHeap :=
  hset h a (h a).IncrementRefCounter

/-- `block_->DecrementRefCounter()` on the block at `a`. -/
def hDecRef (h : BlockHeap) (a : Addr) : BlockHeap :=
  hset h a (h a).DecrementRefCounter

/-- `block_->IncrementWeakRefCounter()` on the block at `a`. -/
def hIncWeak (h : BlockHeap) (a : Addr) : BlockHeap :=
  hset h a (h a).IncrementWeakRefCounter

/-- `block_->DecrementWeakRefCounter()` on the block at `a`. -/
def hDecWeak (h : BlockHeap) (a : Addr) : BlockHeap :=
  hset h a (h a).DecrementWeakRefCounter

/-- `SharedPtr<T>`: `block_` and `observer_` (shared.h lines 249–251),
with `none` for `nullptr`. -/
structure SharedPtr where
  block_ : Option Addr
  observer_ : Option Addr
deriving DecidableEq, Repr

/-- `WeakPtr<T>`: `block_` and `observer_` (weak.h lines 107–109). -/
structure WeakPtr where
  block_ : Option Addr
  observer_ : Option Addr
deriving DecidableEq, Repr

/-- `BadWeakPtr`, the exception thrown by the promoting constructor
(shared.h line 169).  Its definition lives in `sw_fwd.h`, which is not
part of the sources; it carries no data relevant to any claim, so it is
a plain unit-like type here.  The spec calls it `ExpiredReference`. -/
inductive BadWeakPtr where
  | mk : BadWeakPtr
deriving DecidableEq, Repr

/-- `SharedPtr() noexcept : block_(nullptr), observer_(nullptr)`
(shared.h lines 119–120); `SharedPtr(std::nullptr_t)` (line 121)
delegates to it. -/
def SharedPtr.mkDefault : SharedPtr :=
  ⟨none, none⟩

/-- `explicit SharedPtr(Y* ptr)` for a payload type without the
self-reference capability (shared.h lines 123–131): allocate a fresh
`ControlBlockWithPtr(ptr)` at address `a`, cache `ptr` as observer, and —
since `new` never yields null — increment the strong counter.  The
`if constexpr` branch installing `weak_this_` is not taken. -/
def SharedPtr.fromRaw (h : BlockHeap) (a : Addr) (ptr : Option Addr) : SharedPtr × BlockHeap :=
  let h1 := hset h a (ControlBlockWithPtr.init ptr)
  (⟨some a, ptr⟩, hIncRef h1 a)

/-- Copy constructor (shared.h lines 133–144): share both pointers and,
when the block is non-null, increment the strong counter. -/
def SharedPtr.copy (h : BlockHeap) (other : SharedPtr) : SharedPtr × BlockHeap :=
  (⟨other.block_, other.observer_⟩,
    match other.block_ with
    | some a => hIncRef h a
    | none => h)

/-- Move constructor (shared.h lines 146–154): steal the pointers, zero
the source, no counter traffic.  Returns (new handle, emptied source). -/
def SharedPtr.moveFrom (other : SharedPtr) : SharedPtr × SharedPtr :=
  (⟨other.block_, other.observer_⟩, ⟨none, none⟩)

/-- Aliasing constructor (shared.h lines 158–163): share the source's
block (incrementing its strong counter when non-null) but cache the given
pointer. -/
def SharedPtr.aliasCtor (h : BlockHeap) (other : SharedPtr) (ptr : Option Addr) :
    SharedPtr × BlockHeap :=
  (⟨other.block_, ptr⟩,
    match other.block_ with
    | some a => hIncRef h a
    | none => h)

/-- `GetRefCount` of the handle's block, or 0 when empty: `UseCount`
(shared.h lines 242–244). -/
def SharedPtr.UseCount (h : BlockHeap) (s : SharedPtr) : Nat :=
  match s.block_ with
  | some a => (h a).GetRefCount
  | none => 0

/-- `WeakPtr::UseCount` (weak.h lines 97–99). -/
def WeakPtr.UseCount (h : BlockHeap) (w : WeakPtr) : Nat :=
  match w.block_ with
  | some a => (h a).GetRefCount
  | none => 0

/-- `WeakPtr::Expired` (weak.h lines 100–102): `UseCount() == 0`. -/
def WeakPtr.Expired (h : BlockHeap) (w : WeakPtr) : Bool :=
  WeakPtr.UseCount h w == 0

/-- Promoting constructor `SharedPtr(const WeakPtr<T>&)` (shared.h lines
167–176): throw `BadWeakPtr` when expired, otherwise share both pointers
and increment the strong counter when the block is non-null. -/
def SharedPtr.fromWeak (h : BlockHeap) (other : WeakPtr) :
    Except BadWeakPtr (SharedPtr × BlockHeap) :=
  if WeakPtr.Expired h other then Except.error BadWeakPtr.mk
  else
    Except.ok (⟨other.block_, other.observer_⟩,
      match other.block_ with
      | some a => hIncRef h a
      | none => h)

/-- `~SharedPtr` (shared.h lines 209–213): decrement the strong counter
when the block is non-null. -/
def SharedPtr.destroy (h : BlockHeap) (s : SharedPtr) : BlockHeap :=
  match s.block_ with
  | some a => hDecRef h a
  | none => h

/-- `operator=(SharedPtr other)` (shared.h lines 194–204): the by-value
parameter is copy-constructed at the call site, the old block (if any) is
strong-decremented, the parameter's pointers are adopted (with a strong
increment), and the parameter is destroyed when the call ends. -/
def SharedPtr.assign (h : BlockHeap) (dst src : SharedPtr) : SharedPtr × BlockHeap :=
  let oc := SharedPtr.copy h src
  let h2 :=
    match dst.block_ with
    | some a => hDecRef oc.2 a
    | none => oc.2
  let dst2 : SharedPtr := ⟨oc.1.block_, oc.1.observer_⟩
  let h3 :=
    match dst2.block_ with
    | some a => hIncRef h2 a
    | none => h2
  (dst2, SharedPtr.destroy h3 oc.1)

/-- `Reset()` (shared.h lines 218–220): `*this = SharedPtr<T>(nullptr)`,
i.e. assignment from an empty temporary. -/
def SharedPtr.reset (h : BlockHeap) (s : SharedPtr) : SharedPtr × BlockHeap :=
  SharedPtr.assign h s SharedPtr.mkDefault

/-- `Get` (shared.h lines 233–235). -/
def SharedPtr.Get (s : SharedPtr) : Option Addr :=
  s.observer_

/-- `explicit operator bool` (shared.h lines 245–247):
`observer_ != nullptr`. -/
def SharedPtr.toBool (s : SharedPtr) : Bool :=
  s.observer_ != none

/-- `operator==(const SharedPtr&, const SharedPtr&)` (shared.h lines
263–266): `left.Get() == right.Get()`. -/
def sharedPtrEq (left right : SharedPtr) : Bool :=
  left.Get == right.Get

/-- `WeakPtr() noexcept` (weak.h lines 14–15). -/
def WeakPtr.mkDefault : WeakPtr :=
  ⟨none, none⟩

/-- Copy constructor (weak.h lines 17–27): share both pointers and, when
the block is non-null, increment the weak counter. -/
def WeakPtr.copy (h : BlockHeap) (other : WeakPtr) : WeakPtr × BlockHeap :=
  (⟨other.block_, other.observer_⟩,
    match other.block_ with
    | some a => hIncWeak h a
    | none => h)

/-- Demoting constructor `WeakPtr(const SharedPtr<T>&)` (weak.h lines
41–45): share both pointers, increment the weak counter when non-null. -/
def WeakPtr.fromShared (h : BlockHeap) (other : SharedPtr) : WeakPtr × BlockHeap :=
  (⟨other.block_, other.observer_⟩,
    match other.block_ with
    | some a => hIncWeak h a
    | none => h)

/-- `~WeakPtr` (weak.h lines 77–81): decrement the weak counter when the
block is non-null. -/
def WeakPtr.destroy (h : BlockHeap) (w : WeakPtr) : BlockHeap :=
  match w.block_ with
  | some a => hDecWeak h a
  | none => h

/-- `operator=(WeakPtr other)` (weak.h lines 62–72): by-value parameter
copy, weak-decrement of the old block, adoption with a weak increment,
destruction of the parameter. -/
def WeakPtr.assign (h : BlockHeap) (dst src : WeakPtr) : WeakPtr × BlockHeap :=
  let oc := WeakPtr.copy h src
  let h2 :=
    match dst.block_ with
    | some a => hDecWeak oc.2 a
    | none => oc.2
  let dst2 : WeakPtr := ⟨oc.1.block_, oc.1.observer_⟩
  let h3 :=
    match dst2.block_ with
    | some a => hIncWeak h2 a
    | none => h2
  (dst2, WeakPtr.destroy h3 oc.1)

/-- `Lock()` (weak.h lines 103–105):
`Expired() ? SharedPtr<T>() : SharedPtr<T>(*this)`; in the non-expired
branch the promoting constructor cannot throw, so its body is inlined. -/
def WeakPtr.Lock (h : BlockHeap) (w : WeakPtr) : SharedPtr × BlockHeap :=
  if WeakPtr.Expired h w then (SharedPtr.mkDefault, h)
  else
    (⟨w.block_, w.observer_⟩,
      match w.block_ with
      | some a => hIncRef h a
      | none => h)

/-!
## Self-reference capability (`EnableSharedFromThis`) and `MakeShared`

A payload type with the capability embeds one `WeakPtr` field `weak_this_`
(shared.h line 301).  The world couples the block heap with a heap of
such payload objects (indexed by payload address).
-/

/-- A payload object of a type deriving `EnableSharedFromThis`: its single
`weak_this_` member (shared.h line 301). -/
structure ESFTObj where
  weak_this_ : WeakPtr
deriving DecidableEq, Repr

/-- Block heap plus payload-object heap. -/
structure World where
  blocks : BlockHeap
  objs : Addr → ESFTObj

/-- Update the payload-object heap at one address. -/
def oset (f : Addr → ESFTObj) (a : Addr) (o : ESFTObj) : Addr → ESFTObj :=
  fun x => if x = a then o else f x

/-- `explicit SharedPtr(Y* ptr)` for a payload type WITH the
self-reference capability (shared.h lines 123–131): as `fromRaw`, then —
`is_convertible_v<Y*, ESFTBase*>` holds — execute
`ptr->weak_this_ = WeakPtr(*this)`: construct the temporary demoted
handle, run `WeakPtr::operator=` (with its by-value parameter) on the
payload's `weak_this_`, and destroy the temporary. -/
def SharedPtr.fromRawESFT (wd : World) (a p : Addr) : SharedPtr × World :=
  let h1 := hset wd.blocks a (ControlBlockWithPtr.init (some p))
  let h2 := hIncRef h1 a
  let res : SharedPtr := ⟨some a, some p⟩
  let tmp := WeakPtr.fromShared h2 res
  let asg := WeakPtr.assign tmp.2 ((wd.objs p).weak_this_) tmp.1
  let h5 := WeakPtr.destroy asg.2 tmp.1
  (res, ⟨h5, oset wd.objs p ⟨asg.1⟩⟩)

/-- `MakeShared<T>(args...)` for a payload type WITH the self-reference
capability (shared.h lines 269–280): one allocation at `a` —
`ControlBlockOwning` constructs the payload in its inline buffer (whose
address is `pb`, so the fresh payload's `weak_this_` member is
default-constructed) — then `IncrementRefCounter` and the same
`weak_this_` installation as the raw-pointer path. -/
def MakeShared (wd : World) (a pb : Addr) : SharedPtr × World :=
  let objs0 := oset wd.objs pb ⟨WeakPtr.mkDefault⟩
  let h1 := hset wd.blocks a (ControlBlockWithPtr.init (some pb))
  let h2 := hIncRef h1 a
  let res : SharedPtr := ⟨some a, some pb⟩
  let tmp := WeakPtr.fromShared h2 res
  let asg := WeakPtr.assign tmp.2 ((objs0 pb).weak_this_) tmp.1
  let h5 := WeakPtr.destroy asg.2 tmp.1
  (res, ⟨h5, oset objs0 pb ⟨asg.1⟩⟩)

/-- `EnableSharedFromThis::SharedFromThis` (shared.h lines 286–288):
`SharedPtr(weak_this_)`, the promoting constructor on the embedded weak
handle of the payload at `p`. -/
def EnableSharedFromThis.SharedFromThis (wd : World) (p : Addr) :
    Except BadWeakPtr (SharedPtr × BlockHeap) :=
  SharedPtr.fromWeak wd.blocks (wd.objs p).weak_this_

/-- `EnableSharedFromThis::WeakFromThis` (shared.h lines 293–295):
`return weak_this_;`, i.e. a copy of the embedded weak handle. -/
def EnableSharedFromThis.WeakFromThis (wd : World) (p : Addr) : WeakPtr × BlockHeap :=
  WeakPtr.copy wd.blocks (wd.objs p).weak_this_

/-!
## The public API surface, enumerated

Used to state that the promoting constructor is the only operation that
can raise `BadWeakPtr`.
-/

/-- One call to the public handle API (shared.h / weak.h), with its
arguments. -/
inductive ApiCall where
  | mkDefaultS : ApiCall
  | fromRaw (a : Addr) (ptr : Option Addr) : ApiCall
  | copyS (s : SharedPtr) : ApiCall
  | moveS (s : SharedPtr) : ApiCall
  | aliasC (s : SharedPtr) (ptr : Option Addr) : ApiCall
  | promote (w : WeakPtr) : ApiCall
  | assignS (dst src : SharedPtr) : ApiCall
  | resetS (s : SharedPtr) : ApiCall
  | destroyS (s : SharedPtr) : ApiCall
  | mkDefaultW : ApiCall
  | demote (s : SharedPtr) : ApiCall
  | copyWk (w : WeakPtr) : ApiCall
  | assignWk (dst src : WeakPtr) : ApiCall
  | destroyWk (w : WeakPtr) : ApiCall
  | lockW (w : WeakPtr) : ApiCall
deriving DecidableEq, Repr

/-- Run one API call on the heap.  Every operation except the promoting
constructor is total (`noexcept` in the source); the promoting
constructor is the only one whose result can be an error. -/
def runApi : ApiCall → BlockHeap → Except BadWeakPtr BlockHeap
  | ApiCall.mkDefaultS, h => Except.ok h
  | ApiCall.fromRaw a ptr, h => Except.ok (SharedPtr.fromRaw h a ptr).2
  | ApiCall.copyS s, h => Except.ok (SharedPtr.copy h s).2
  | ApiCall.moveS _, h => Except.ok h
  | ApiCall.aliasC s ptr, h => Except.ok (SharedPtr.aliasCtor h s ptr).2
  | ApiCall.promote w, h => Except.map Prod.snd (SharedPtr.fromWeak h w)
  | ApiCall.assignS dst src, h => Except.ok (SharedPtr.assign h dst src).2
  | ApiCall.resetS s, h => Except.ok (SharedPtr.reset h s).2
  | ApiCall.destroyS s, h => Except.ok (SharedPtr.destroy h s)
  | ApiCall.mkDefaultW, h => Except.ok h
  | ApiCall.demote s, h => Except.ok (WeakPtr.fromShared h s).2
  | ApiCall.copyWk w, h => Except.ok (WeakPtr.copy h w).2
  | ApiCall.assignWk dst src, h => Except.ok (WeakPtr.assign h dst src).2
  | ApiCall.destroyWk w, h => Except.ok (WeakPtr.destroy h w)
  | ApiCall.lockW w, h => Except.ok (WeakPtr.Lock h w).2

/-!
## Theorems for the temporal and counter-invariant claims
-/

/-- In any invariant state, the number of payload destructions performed
so far is 1 exactly when the strong count has hit zero, else 0. -/
theorem count_payloadFree_of_reachInv (s : SysState) (h : ReachInv s) :
    s.blk.events.count Ev.payloadFree = if s.liveStrong = 0 then 1 else 0 := by
  rw [h.2.2]
  by_cases c1 : s.liveStrong = 0
  · by_cases c2 : s.liveWeak = 0
    · have c3 : s.liveStrong + s.liveWeak = 0 := by omega
      simp [c1, c2, c3]
    · have c3 : ¬(s.liveStrong + s.liveWeak = 0) := by omega
      simp [c1, c2, c3]
  · have c3 : ¬(s.liveStrong + s.liveWeak = 0) := by omega
    simp [c1, c3]

/-- In any invariant state, the number of block destructions performed so
far is 1 exactly when no live handle of either kind remains, else 0. -/
theorem count_blockFree_of_reachInv (s : SysState) (h : ReachInv s) :
    s.blk.events.count Ev.blockFree
      = if s.liveStrong + s.liveWeak = 0 then 1 else 0 := by
  rw [h.2.2]
  by_cases c1 : s.liveStrong = 0
  · by_cases c2 : s.liveWeak = 0
    · have c3 : s.liveStrong + s.liveWeak = 0 := by omega
      simp [c1, c2, c3]
    · have c3 : ¬(s.liveStrong + s.liveWeak = 0) := by omega
      simp [c1, c2, c3]
  · have c3 : ¬(s.liveStrong + s.liveWeak = 0) := by omega
    simp [c1, c3]

/-- C1.  For every well-formed sequence of strong-handle operations
(construct, copy, move, assign, reset, destroy) sharing one control block,
interleaved arbitrarily with weak-handle creation/destruction, the payload
is destroyed exactly once, and exactly at the step in which the strong
count reaches zero — the destruction or reset of the last strong handle —
never earlier and never later: the running count of payload destructions
is 0 while a strong handle lives and 1 afterwards, and a step increases it
exactly when it is the destruction/reset of the last strong handle. -/
theorem payload_destroyed_exactly_at_last_strong_release (p : Option Addr) (l : List HOp)
    (hwf : wfTrace (initState p) l = true) :
    ((runTrace (initState p) l).blk.events.count Ev.payloadFree
        = if (runTrace (initState p) l).liveStrong = 0 then 1 else 0)
    ∧ (∀ op : HOp, wfOp op (runTrace (initState p) l) = true →
        (((hstep op (runTrace (initState p) l)).blk.events.count Ev.payloadFree
            = (runTrace (initState p) l).blk.events.count Ev.payloadFree + 1)
          ↔ ((op = HOp.destroyStrong ∨ op = HOp.resetStrong)
              ∧ (runTrace (initState p) l).liveStrong = 1))) := by
  have hInv := reachInv_runTrace l (initState p) (reachInv_initState p) hwf
  refine ⟨count_payloadFree_of_reachInv _ hInv, ?_⟩
  intro op hop
  have hInv2 := reachInv_hstep op (runTrace (initState p) l) hInv hop
  have c1 := count_payloadFree_of_reachInv _ hInv
  have c2 := count_payloadFree_of_reachInv _ hInv2
  rw [c1, c2]
  cases op <;>
    simp only [hstep, wfOp, decide_eq_true_eq, Bool.and_eq_true] at hop ⊢ <;>
    split_ifs <;> simp_all <;> omega

/-- C2.  Along every well-formed trace the control block is destroyed
exactly once, strictly after the payload (whenever the block-destruction
event has happened, the history is payload first, block second), and only
at the step where the weak count reaches zero (no live handle of either
kind remains).  Moreover, during the strong decrement that destroys the
payload, the weak counter is raised by one extra before the teardown and
lowered afterwards, so the block survives even if the payload's own
teardown destroys `k` weak handles targeting this same block: starting
from one strong handle and `w ≥ k` other weak references, the reentrant
decrement records the payload destruction first and destroys the block at
most once, exactly when the teardown consumed the last weak reference.
With `k = 0` the reentrant decrement is the source's
`DecrementRefCounter`. -/
theorem block_destroyed_once_strictly_after_payload (p : Option Addr) (l : List HOp)
    (hwf : wfTrace (initState p) l = true) :
    ((runTrace (initState p) l).blk.events.count Ev.blockFree
        = if (runTrace (initState p) l).liveStrong + (runTrace (initState p) l).liveWeak = 0
          then 1 else 0)
    ∧ (Ev.blockFree ∈ (runTrace (initState p) l).blk.events →
        (runTrace (initState p) l).blk.events = [Ev.payloadFree, Ev.blockFree])
    ∧ (∀ w k : Nat, k ≤ w →
        (ControlBlockWithPtr.DecrementRefCounterReentrant k ⟨p, 1, 1 + w, []⟩).events
            = (if k = w then [Ev.payloadFree, Ev.blockFree] else [Ev.payloadFree])
          ∧ (ControlBlockWithPtr.DecrementRefCounterReentrant k ⟨p, 1, 1 + w, []⟩).ref_counter_
            = 0
          ∧ (ControlBlockWithPtr.DecrementRefCounterReentrant k
              ⟨p, 1, 1 + w, []⟩).weak_ref_counter_ = w - k)
    ∧ (∀ b : ControlBlockWithPtr,
        ControlBlockWithPtr.DecrementRefCounterReentrant 0 b = b.DecrementRefCounter) := by
  have hInv := reachInv_runTrace l (initState p) (reachInv_initState p) hwf
  refine ⟨count_blockFree_of_reachInv _ hInv, ?_, ?_, ?_⟩
  · intro hmem
    rw [hInv.2.2] at hmem ⊢
    by_cases c1 : (runTrace (initState p) l).liveStrong = 0 <;>
      by_cases c2 : (runTrace (initState p) l).liveStrong
          + (runTrace (initState p) l).liveWeak = 0 <;>
      simp_all
  · intro w k hk
    rw [DecrementRefCounterReentrant_eq k w p [] hk]
    by_cases hz : w - k = 0
    · have he : k = w := by omega
      simp [hz, he]
    · have he : ¬k = w := by omega
      simp [hz, he]
  · intro b
    rfl

/-- C5.  Reachable-state invariant of the control block: the weak counter
equals the number of live weak handles plus one per live strong handle
(hence `weak_count ≥ strong_count` whenever `strong_count > 0`), the
strong counter equals the number of live strong handles; moreover every
strong increment also increments the weak counter and every strong
decrement (from a state with both counters positive, the caller-enforced
precondition) also decrements the weak counter. -/
theorem weak_count_counts_weak_plus_strong (p : Option Addr) (l : List HOp)
    (hwf : wfTrace (initState p) l = true) :
    ((runTrace (initState p) l).blk.weak_ref_counter_
        = (runTrace (initState p) l).liveWeak + (runTrace (initState p) l).liveStrong
      ∧ (runTrace (initState p) l).blk.ref_counter_ = (runTrace (initState p) l).liveStrong
      ∧ (0 < (runTrace (initState p) l).blk.ref_counter_ →
          (runTrace (initState p) l).blk.ref_counter_
            ≤ (runTrace (initState p) l).blk.weak_ref_counter_))
    ∧ (∀ b : ControlBlockWithPtr,
        b.IncrementRefCounter.ref_counter_ = b.ref_counter_ + 1
        ∧ b.IncrementRefCounter.weak_ref_counter_ = b.weak_ref_counter_ + 1)
    ∧ (∀ b : ControlBlockWithPtr, 1 ≤ b.ref_counter_ → 1 ≤ b.weak_ref_counter_ →
        b.DecrementRefCounter.ref_counter_ = b.ref_counter_ - 1
        ∧ b.DecrementRefCounter.weak_ref_counter_ = b.weak_ref_counter_ - 1) := by
  have hInv := reachInv_runTrace l (initState p) (reachInv_initState p) hwf
  refine ⟨⟨by rw [hInv.2.1]; omega, hInv.1, ?_⟩, ?_, ?_⟩
  · rw [hInv.1, hInv.2.1]
    omega
  · intro b
    exact ⟨rfl, rfl⟩
  · intro b h1 h2
    obtain ⟨q, r, w, ev⟩ := b
    simp only at h1 h2
    rw [ControlBlockWithPtr.DecrementRefCounter_eq]
    split_ifs <;> exact ⟨rfl, rfl⟩

/-- Witness for C1 at a concrete five-step trace (one weak creation, one
strong copy, three destructions): the payload is destroyed exactly
once. -/
theorem payload_destroyed_exactly_at_last_strong_release_witness :
    wfTrace (initState (some 0))
        [HOp.createWeak, HOp.copyStrong, HOp.destroyStrong, HOp.destroyStrong,
          HOp.destroyWeak] = true
    ∧ (runTrace (initState (some 0))
        [HOp.createWeak, HOp.copyStrong, HOp.destroyStrong, HOp.destroyStrong,
          HOp.destroyWeak]).blk.events.count Ev.payloadFree = 1 := by
  have h := payload_destroyed_exactly_at_last_strong_release (some 0)
    [HOp.createWeak, HOp.copyStrong, HOp.destroyStrong, HOp.destroyStrong,
      HOp.destroyWeak] (by decide)
  refine ⟨by decide, ?_⟩
  rw [h.1]
  decide

/-- Witness for C2 at a concrete trace ending with the last weak handle,
and at the reentrant decrement with one embedded weak handle. -/
theorem block_destroyed_once_strictly_after_payload_witness :
    wfTrace (initState (some 0)) [HOp.createWeak, HOp.destroyStrong, HOp.destroyWeak] = true
    ∧ (1 : Nat) ≤ 1
    ∧ (runTrace (initState (some 0))
        [HOp.createWeak, HOp.destroyStrong, HOp.destroyWeak]).blk.events.count Ev.blockFree = 1
    ∧ (ControlBlockWithPtr.DecrementRefCounterReentrant 1
        ⟨some 0, 1, 1 + 1, []⟩).events = [Ev.payloadFree, Ev.blockFree] := by
  have h := block_destroyed_once_strictly_after_payload (some 0)
      [HOp.createWeak, HOp.destroyStrong, HOp.destroyWeak] (by decide)
  refine ⟨by decide, by decide, ?_, ?_⟩
  · rw [h.1]
    decide
  · rw [(h.2.2.1 1 1 (by decide)).1]
    decide

/-- Witness for C5 at a concrete trace with two strong and one weak
handle: the weak counter is 3. -/
theorem weak_count_counts_weak_plus_strong_witness :
    wfTrace (initState (some 0)) [HOp.createWeak, HOp.copyStrong] = true
    ∧ (runTrace (initState (some 0))
        [HOp.createWeak, HOp.copyStrong]).blk.weak_ref_counter_ = 3 := by
  have h := weak_count_counts_weak_plus_strong (some 0) [HOp.createWeak, HOp.copyStrong]
    (by decide)
  refine ⟨by decide, ?_⟩
  rw [h.1.1]
  decide

/-- C3.  The promoting construction of a strong handle from a weak handle
fails with the `BadWeakPtr` error (the spec's `ExpiredReference`) iff the
weak handle's reported strong count is zero; when it succeeds it shares
the weak handle's block and cached payload pointer and increments that
block's strong count by one; and promotion is the only operation of the
whole API surface whose result can be this error. -/
theorem promote_fails_iff_expired_and_is_only_error :
    (∀ (h : BlockHeap) (w : WeakPtr),
      SharedPtr.fromWeak h w = Except.error BadWeakPtr.mk ↔ WeakPtr.UseCount h w = 0)
    ∧ (∀ (h : BlockHeap) (w : WeakPtr) (a : Addr), w.block_ = some a →
        ¬(h a).GetRefCount = 0 →
        SharedPtr.fromWeak h w = Except.ok (⟨some a, w.observer_⟩, hIncRef h a)
        ∧ (hIncRef h a a).GetRefCount = (h a).GetRefCount + 1)
    ∧ (∀ (c : ApiCall) (h : BlockHeap) (e : BadWeakPtr),
        runApi c h = Except.error e →
        ∃ w : WeakPtr, c = ApiCall.promote w ∧ WeakPtr.UseCount h w = 0) := by
  refine ⟨?_, ?_, ?_⟩
  · intro h w
    by_cases hc : WeakPtr.UseCount h w = 0 <;>
      simp [SharedPtr.fromWeak, WeakPtr.Expired, hc]
  · intro h w a hb hr
    have hexp : WeakPtr.Expired h w = false := by
      simp [WeakPtr.Expired, WeakPtr.UseCount, hb, hr]
    refine ⟨?_, ?_⟩
    · simp [SharedPtr.fromWeak, hexp, hb]
    · simp [hIncRef, hset, ControlBlockWithPtr.GetRefCount,
        ControlBlockWithPtr.IncrementRefCounter]
  · intro c h e hc
    cases c <;> simp only [runApi] at hc <;> try exact absurd hc (by simp)
    case promote w =>
      by_cases hex : WeakPtr.Expired h w = true
      · exact ⟨w, rfl, by simpa [WeakPtr.Expired] using hex⟩
      · rw [SharedPtr.fromWeak, if_neg (by simpa using hex)] at hc
        exact absurd hc (by simp [Except.map])

/-- Witness for C3: promotion from a live weak handle (strong count 1)
succeeds, shares block and pointer, and increments the count. -/
theorem promote_fails_iff_expired_and_is_only_error_witness :
    (⟨some 0, some 1⟩ : WeakPtr).block_ = some 0
    ∧ ¬((fun _ => (⟨some 1, 1, 1, []⟩ : ControlBlockWithPtr)) 0).GetRefCount = 0
    ∧ SharedPtr.fromWeak (fun _ => ⟨some 1, 1, 1, []⟩) ⟨some 0, some 1⟩
        = Except.ok (⟨some 0, some 1⟩, hIncRef (fun _ => ⟨some 1, 1, 1, []⟩) 0) := by
  refine ⟨rfl, by decide, ?_⟩
  exact ((promote_fails_iff_expired_and_is_only_error).2.1
    (fun _ => ⟨some 1, 1, 1, []⟩) ⟨some 0, some 1⟩ 0 rfl (by decide)).1

/-- C4.  For every weak handle whose target's strong count is zero —
whatever the weak count still is, so in particular when other weak handles
to the same block outlive the payload — `Expired()` is true and `Lock()`
returns the empty strong handle together with the untouched heap; `Lock()`
is a total function (it cannot throw), and in the non-expired case its
result is exactly the successful promoting construction. -/
theorem expired_lock_returns_empty (h : BlockHeap) (w : WeakPtr) :
    (WeakPtr.Expired h w = true ↔ WeakPtr.UseCount h w = 0)
    ∧ (WeakPtr.UseCount h w = 0 → WeakPtr.Lock h w = (SharedPtr.mkDefault, h))
    ∧ (¬WeakPtr.UseCount h w = 0 →
        SharedPtr.fromWeak h w = Except.ok (WeakPtr.Lock h w)) := by
  refine ⟨by simp [WeakPtr.Expired], ?_, ?_⟩
  · intro hz
    simp [WeakPtr.Lock, WeakPtr.Expired, hz]
  · intro hz
    simp [SharedPtr.fromWeak, WeakPtr.Lock, WeakPtr.Expired, hz]

/-- Witness for C4: a block with strong count 0 but weak count 2 (two
weak handles outliving the payload) — `Lock` yields the empty handle and
leaves the heap alone. -/
theorem expired_lock_returns_empty_witness :
    WeakPtr.UseCount (fun _ => (⟨some 1, 0, 2, [Ev.payloadFree]⟩ : ControlBlockWithPtr))
        ⟨some 0, some 1⟩ = 0
    ∧ WeakPtr.Lock (fun _ => ⟨some 1, 0, 2, [Ev.payloadFree]⟩) ⟨some 0, some 1⟩
        = (SharedPtr.mkDefault, fun _ => ⟨some 1, 0, 2, [Ev.payloadFree]⟩) := by
  refine ⟨by decide, ?_⟩
  exact (expired_lock_returns_empty (fun _ => ⟨some 1, 0, 2, [Ev.payloadFree]⟩)
    ⟨some 0, some 1⟩).2.1 (by decide)

/-- The strong handle produced by the round trip of claim C7:
demote `s` to a weak handle, then `Lock()` it. -/
def roundTripLock (h : BlockHeap) (s : SharedPtr) : SharedPtr :=
  (WeakPtr.Lock (WeakPtr.fromShared h s).2 (WeakPtr.fromShared h s).1).1

/-- The heap after the complete round trip of claim C7: demote `s`, lock
the weak handle, then destroy the locked handle and the weak handle. -/
def roundTripHeap (h : BlockHeap) (s : SharedPtr) : BlockHeap :=
  WeakPtr.destroy
    (SharedPtr.destroy (WeakPtr.Lock (WeakPtr.fromShared h s).2 (WeakPtr.fromShared h s).1).2
      (WeakPtr.Lock (WeakPtr.fromShared h s).2 (WeakPtr.fromShared h s).1).1)
    (WeakPtr.fromShared h s).1

/-- C7.  For every live strong handle (non-null block whose strong and
weak counters are at least 1, as they are for any live handle), demoting
it to a weak handle and locking that weak handle yields a strong handle
equal to the original under the library's equality (identical cached
payload pointer), and after the round-trip temporaries are destroyed the
whole heap — in particular the block's use count and its destruction
history — is unchanged. -/
theorem round_trip_lock_preserves_handle_and_counts (h : BlockHeap) (s : SharedPtr) (a : Addr)
    (hb : s.block_ = some a) (hr : 1 ≤ (h a).ref_counter_)
    (hw : 1 ≤ (h a).weak_ref_counter_) :
    (roundTripLock h s).Get = s.Get
    ∧ sharedPtrEq (roundTripLock h s) s = true
    ∧ (∀ x : Addr, roundTripHeap h s x = h x)
    ∧ SharedPtr.UseCount (roundTripHeap h s) s = SharedPtr.UseCount h s := by
  rcases hHa : h a with ⟨p, r, w, ev⟩
  rw [hHa] at hr hw
  simp only at hr hw
  have hdw1 : (WeakPtr.fromShared h s).1 = ⟨some a, s.observer_⟩ := by
    simp [WeakPtr.fromShared, hb]
  have hdw2 : (WeakPtr.fromShared h s).2 = hIncWeak h a := by
    simp [WeakPtr.fromShared, hb]
  have hg1a : hIncWeak h a a = ⟨p, r, w + 1, ev⟩ := by
    simp [hIncWeak, hset, hHa, ControlBlockWithPtr.IncrementWeakRefCounter]
  have hexp : WeakPtr.Expired (hIncWeak h a) ⟨some a, s.observer_⟩ = false := by
    simp [WeakPtr.Expired, WeakPtr.UseCount, hg1a, ControlBlockWithPtr.GetRefCount]
    omega
  have hlk : WeakPtr.Lock (hIncWeak h a) ⟨some a, s.observer_⟩
      = (⟨some a, s.observer_⟩, hIncRef (hIncWeak h a) a) := by
    simp [WeakPtr.Lock, hexp]
  have hg2a : hIncRef (hIncWeak h a) a a = ⟨p, r + 1, w + 2, ev⟩ := by
    simp [hIncRef, hset, hg1a, ControlBlockWithPtr.IncrementRefCounter]
  have hlock1 : roundTripLock h s = ⟨some a, s.observer_⟩ := by
    rw [roundTripLock, hdw1, hdw2, hlk]
  have hg3a : hDecRef (hIncRef (hIncWeak h a) a) a a = ⟨p, r, w + 1, ev⟩ := by
    simp only [hDecRef, hset, if_pos rfl, hg2a]
    rw [ControlBlockWithPtr.DecrementRefCounter_eq]
    have c1 : ¬(r + 1 - 1 = 0) := by omega
    have c2 : ¬(w + 2 - 1 = 0) := by omega
    rw [if_neg c1, if_neg c2]
    have er : r + 1 - 1 = r := by omega
    have ew : w + 2 - 1 = w + 1 := by omega
    rw [er, ew]
    simp
  have hAll : ∀ x : Addr, roundTripHeap h s x = h x := by
    intro x
    rw [roundTripHeap, hdw1, hdw2, hlk]
    by_cases hx : x = a
    · subst hx
      simp only [WeakPtr.destroy, SharedPtr.destroy]
      simp only [hDecWeak, hset, if_pos rfl]
      rw [hg3a]
      rw [ControlBlockWithPtr.DecrementWeakRefCounter_eq]
      have c3 : ¬(w + 1 - 1 = 0) := by omega
      rw [if_neg c3, hHa]
      have ew2 : w + 1 - 1 = w := by omega
      rw [ew2]
      simp
    · simp [WeakPtr.destroy, SharedPtr.destroy, hDecWeak, hDecRef, hIncRef, hIncWeak,
        hset, hx]
  refine ⟨by rw [hlock1]; rfl, ?_, hAll, ?_⟩
  · rw [sharedPtrEq, hlock1]
    simp [SharedPtr.Get]
  · simp [SharedPtr.UseCount, hb, hAll a]

/-- Witness for C7: a handle on a block with one strong and one weak
reference; the round trip preserves the cached pointer and the heap. -/
theorem round_trip_lock_preserves_handle_and_counts_witness :
    ((⟨some 0, some 5⟩ : SharedPtr).block_ = some 0)
    ∧ 1 ≤ ((fun _ => (⟨some 5, 1, 1, []⟩ : ControlBlockWithPtr)) 0).ref_counter_
    ∧ (roundTripLock (fun _ => ⟨some 5, 1, 1, []⟩) ⟨some 0, some 5⟩).Get = some 5
    ∧ SharedPtr.UseCount (roundTripHeap (fun _ => ⟨some 5, 1, 1, []⟩) ⟨some 0, some 5⟩)
        ⟨some 0, some 5⟩ = 1 := by
  have h := round_trip_lock_preserves_handle_and_counts (fun _ => ⟨some 5, 1, 1, []⟩)
    ⟨some 0, some 5⟩ 0 rfl (by decide) (by decide)
  refine ⟨rfl, by decide, ?_, ?_⟩
  · rw [h.1]
    rfl
  · rw [h.2.2.2]
    decide

/-- C6.  For a payload type with the self-reference capability, both
construction paths that create the first strong handle — raw-pointer
construction and the combined-allocation factory — install into the
payload's embedded `weak_this_` a weak handle sharing the new control
block and pointing at the payload; afterwards `SharedFromThis` succeeds
and returns a strong handle with the same block and payload pointer as
the constructing handle, and `WeakFromThis` returns a copy of the
embedded weak handle.  (For the raw-pointer path the payload pre-exists
with its `weak_this_` default-constructed; `MakeShared` constructs the
payload itself.) -/
theorem esft_weak_this_installed_by_both_construction_paths (wd : World) (a pb : Addr)
    (hfresh : (wd.objs pb).weak_this_ = WeakPtr.mkDefault) :
    ((SharedPtr.fromRawESFT wd a pb).1 = ⟨some a, some pb⟩
      ∧ (((SharedPtr.fromRawESFT wd a pb).2.objs pb).weak_this_ : WeakPtr)
          = ⟨some a, some pb⟩
      ∧ EnableSharedFromThis.SharedFromThis (SharedPtr.fromRawESFT wd a pb).2 pb
          = Except.ok (⟨some a, some pb⟩,
              hIncRef (SharedPtr.fromRawESFT wd a pb).2.blocks a)
      ∧ (EnableSharedFromThis.WeakFromThis (SharedPtr.fromRawESFT wd a pb).2 pb).1
          = ⟨some a, some pb⟩)
    ∧ ((MakeShared wd a pb).1 = ⟨some a, some pb⟩
      ∧ (((MakeShared wd a pb).2.objs pb).weak_this_ : WeakPtr) = ⟨some a, some pb⟩
      ∧ EnableSharedFromThis.SharedFromThis (MakeShared wd a pb).2 pb
          = Except.ok (⟨some a, some pb⟩, hIncRef (MakeShared wd a pb).2.blocks a)
      ∧ (EnableSharedFromThis.WeakFromThis (MakeShared wd a pb).2 pb).1
          = ⟨some a, some pb⟩) := by
  have hww : ((SharedPtr.fromRawESFT wd a pb).2.objs pb).weak_this_ = (⟨some a, some pb⟩ : WeakPtr) := by
    simp [SharedPtr.fromRawESFT, WeakPtr.assign, WeakPtr.copy, WeakPtr.fromShared,
      WeakPtr.destroy, oset, hfresh, WeakPtr.mkDefault]
  have hblk : (SharedPtr.fromRawESFT wd a pb).2.blocks a
      = (⟨some pb, 1, 2, []⟩ : ControlBlockWithPtr) := by
    simp [SharedPtr.fromRawESFT, WeakPtr.assign, WeakPtr.copy, WeakPtr.fromShared,
      WeakPtr.destroy, hIncRef, hIncWeak, hDecWeak, hset, hfresh, WeakPtr.mkDefault,
      ControlBlockWithPtr.init, ControlBlockWithPtr.IncrementRefCounter,
      ControlBlockWithPtr.IncrementWeakRefCounter,
      ControlBlockWithPtr.DecrementWeakRefCounter]
  have hww2 : ((MakeShared wd a pb).2.objs pb).weak_this_ = (⟨some a, some pb⟩ : WeakPtr) := by
    simp [MakeShared, WeakPtr.assign, WeakPtr.copy, WeakPtr.fromShared,
      WeakPtr.destroy, oset, WeakPtr.mkDefault]
  have hblk2 : (MakeShared wd a pb).2.blocks a
      = (⟨some pb, 1, 2, []⟩ : ControlBlockWithPtr) := by
    simp [MakeShared, WeakPtr.assign, WeakPtr.copy, WeakPtr.fromShared,
      WeakPtr.destroy, hIncRef, hIncWeak, hDecWeak, hset, oset, WeakPtr.mkDefault,
      ControlBlockWithPtr.init, ControlBlockWithPtr.IncrementRefCounter,
      ControlBlockWithPtr.IncrementWeakRefCounter,
      ControlBlockWithPtr.DecrementWeakRefCounter]
  refine ⟨⟨rfl, hww, ?_, ?_⟩, ⟨rfl, hww2, ?_, ?_⟩⟩
  · rw [EnableSharedFromThis.SharedFromThis, hww]
    simp [SharedPtr.fromWeak, WeakPtr.Expired, WeakPtr.UseCount, hblk,
      ControlBlockWithPtr.GetRefCount]
  · rw [EnableSharedFromThis.WeakFromThis, hww]
    simp [WeakPtr.copy]
  · rw [EnableSharedFromThis.SharedFromThis, hww2]
    simp [SharedPtr.fromWeak, WeakPtr.Expired, WeakPtr.UseCount, hblk2,
      ControlBlockWithPtr.GetRefCount]
  · rw [EnableSharedFromThis.WeakFromThis, hww2]
    simp [WeakPtr.copy]

/-- Witness for C6 at a concrete world: a fresh payload at address 1 and
a fresh block at address 0. -/
theorem esft_weak_this_installed_witness :
    ((({ blocks := fun _ => ⟨none, 0, 0, []⟩, objs := fun _ => ⟨WeakPtr.mkDefault⟩ } :
          World).objs 1).weak_this_ = WeakPtr.mkDefault)
    ∧ ((SharedPtr.fromRawESFT
          { blocks := fun _ => ⟨none, 0, 0, []⟩, objs := fun _ => ⟨WeakPtr.mkDefault⟩ }
          0 1).2.objs 1).weak_this_ = (⟨some 0, some 1⟩ : WeakPtr)
    ∧ ((MakeShared
          { blocks := fun _ => ⟨none, 0, 0, []⟩, objs := fun _ => ⟨WeakPtr.mkDefault⟩ }
          0 1).2.objs 1).weak_this_ = (⟨some 0, some 1⟩ : WeakPtr) := by
  have h := esft_weak_this_installed_by_both_construction_paths
    { blocks := fun _ => ⟨none, 0, 0, []⟩, objs := fun _ => ⟨WeakPtr.mkDefault⟩ } 0 1 rfl
  exact ⟨rfl, h.1.2.1, h.2.2.1⟩

/-- The strong-handle shape invariant claimed by the spec: a null block
reference implies a null cached payload pointer. -/
def NullBlockNullObs (s : SharedPtr) : Prop :=
  s.block_ = none → s.observer_ = none

/-- C8, counterexample: the aliasing constructor — a constructor of the
public interface — applied to the EMPTY strong handle together with a
non-null pointer produces a handle whose block reference is null while
its cached payload pointer is `some 7`: the claimed invariant fails for
this publicly constructible handle. -/
theorem alias_from_empty_breaks_null_invariant :
    (SharedPtr.aliasCtor (fun _ => ⟨none, 0, 0, []⟩) SharedPtr.mkDefault (some 7)).1.block_
        = none
    ∧ ¬(SharedPtr.aliasCtor (fun _ => ⟨none, 0, 0, []⟩) SharedPtr.mkDefault
          (some 7)).1.observer_ = none := by
  exact ⟨rfl, by decide⟩

/-- C8, amended: every constructor and operation of the public interface
preserves "null block implies null observer", EXCEPT that for the
aliasing constructor this requires the source handle to be non-empty or
the supplied pointer to be null (aliasing an empty handle with a non-null
pointer is the sole violation, as the counterexample shows). -/
theorem null_block_null_observer_invariant :
    NullBlockNullObs SharedPtr.mkDefault
    ∧ (∀ (h : BlockHeap) (a : Addr) (ptr : Option Addr),
        NullBlockNullObs (SharedPtr.fromRaw h a ptr).1)
    ∧ (∀ (h : BlockHeap) (s : SharedPtr), NullBlockNullObs s →
        NullBlockNullObs (SharedPtr.copy h s).1)
    ∧ (∀ s : SharedPtr, NullBlockNullObs s → NullBlockNullObs (SharedPtr.moveFrom s).1)
    ∧ (∀ s : SharedPtr, NullBlockNullObs (SharedPtr.moveFrom s).2)
    ∧ (∀ (h : BlockHeap) (s : SharedPtr) (ptr : Option Addr),
        (¬s.block_ = none ∨ ptr = none) →
        NullBlockNullObs (SharedPtr.aliasCtor h s ptr).1)
    ∧ (∀ (h : BlockHeap) (w : WeakPtr) (res : SharedPtr × BlockHeap),
        SharedPtr.fromWeak h w = Except.ok res → NullBlockNullObs res.1)
    ∧ (∀ (h : BlockHeap) (dst src : SharedPtr), NullBlockNullObs src →
        NullBlockNullObs (SharedPtr.assign h dst src).1)
    ∧ (∀ (h : BlockHeap) (s : SharedPtr), NullBlockNullObs (SharedPtr.reset h s).1)
    ∧ (∀ (h : BlockHeap) (w : WeakPtr), NullBlockNullObs (WeakPtr.Lock h w).1) := by
  refine ⟨fun _ => rfl, ?_, ?_, ?_, ?_, ?_, ?_, ?_, ?_, ?_⟩
  · intro h a ptr hb
    exact absurd hb (by simp [SharedPtr.fromRaw])
  · intro h s hs hb
    exact hs hb
  · intro s hs hb
    exact hs hb
  · intro s
    exact fun _ => rfl
  · intro h s ptr hcase hb
    rcases hcase with hc | hc
    · exact absurd hb hc
    · exact hc
  · intro h w res hok
    by_cases hex : WeakPtr.Expired h w = true
    · rw [SharedPtr.fromWeak, if_pos hex] at hok
      exact absurd hok (by simp)
    · rw [SharedPtr.fromWeak, if_neg (by simpa using hex)] at hok
      have hres : res.1 = ⟨w.block_, w.observer_⟩ := by
        cases hok
        rfl
      intro hb
      rw [hres] at hb
      simp only at hb
      exact absurd (by simp [WeakPtr.Expired, WeakPtr.UseCount, hb]) hex
  · intro h dst src hs hb
    have : (SharedPtr.assign h dst src).1.block_ = src.block_ := by
      simp [SharedPtr.assign, SharedPtr.copy]
    rw [this] at hb
    have : (SharedPtr.assign h dst src).1.observer_ = src.observer_ := by
      simp [SharedPtr.assign, SharedPtr.copy]
    rw [this]
    exact hs hb
  · intro h s
    intro _
    simp [SharedPtr.reset, SharedPtr.assign, SharedPtr.copy, SharedPtr.mkDefault]
  · intro h w
    rw [WeakPtr.Lock]
    by_cases hex : WeakPtr.Expired h w = true
    · rw [if_pos hex]
      exact fun _ => rfl
    · rw [if_neg (by simpa using hex)]
      intro hb
      simp only at hb
      exact absurd (by simp [WeakPtr.Expired, WeakPtr.UseCount, hb]) hex

/-- Witness for the amended C8: aliasing a non-empty handle keeps the
invariant. -/
theorem null_block_null_observer_invariant_witness :
    (¬(⟨some 0, some 1⟩ : SharedPtr).block_ = none ∨ (some 2 : Option Addr) = none)
    ∧ NullBlockNullObs
        (SharedPtr.aliasCtor (fun _ => ⟨none, 0, 0, []⟩) ⟨some 0, some 1⟩ (some 2)).1 := by
  refine ⟨Or.inl (by decide), ?_⟩
  exact null_block_null_observer_invariant.2.2.2.2.2.1
    (fun _ => ⟨none, 0, 0, []⟩) ⟨some 0, some 1⟩ (some 2) (Or.inl (by decide))

/-- C9.  The library's equality on strong handles holds iff the cached
payload pointers are identical, independently of block identity: two
aliasing handles over the same block caching different sub-object
pointers compare unequal (while sharing the block), and two empty handles
compare equal. -/
theorem sharedPtrEq_iff_cached_pointer_identity :
    (∀ l r : SharedPtr, sharedPtrEq l r = true ↔ l.Get = r.Get)
    ∧ (∀ (h : BlockHeap) (s : SharedPtr) (p q : Addr), ¬p = q →
        (SharedPtr.aliasCtor h s (some p)).1.block_
            = (SharedPtr.aliasCtor h s (some q)).1.block_
        ∧ sharedPtrEq (SharedPtr.aliasCtor h s (some p)).1
            (SharedPtr.aliasCtor h s (some q)).1 = false)
    ∧ sharedPtrEq SharedPtr.mkDefault SharedPtr.mkDefault = true := by
  refine ⟨?_, ?_, rfl⟩
  · intro l r
    simp [sharedPtrEq]
  · intro h s p q hpq
    exact ⟨rfl, by simp [sharedPtrEq, SharedPtr.Get, SharedPtr.aliasCtor, hpq]⟩

/-- Witness for C9: two aliases of one handle at pointers 1 ≠ 2 are
unequal while sharing the block. -/
theorem sharedPtrEq_iff_cached_pointer_identity_witness :
    ¬(1 : Addr) = 2
    ∧ sharedPtrEq
        (SharedPtr.aliasCtor (fun _ => ⟨none, 0, 0, []⟩) ⟨some 0, some 5⟩ (some 1)).1
        (SharedPtr.aliasCtor (fun _ => ⟨none, 0, 0, []⟩) ⟨some 0, some 5⟩ (some 2)).1
        = false := by
  refine ⟨by decide, ?_⟩
  exact (sharedPtrEq_iff_cached_pointer_identity.2.1
    (fun _ => ⟨none, 0, 0, []⟩) ⟨some 0, some 5⟩ 1 2 (by decide)).2

/-- C10.  Constructing a strong handle from a raw null pointer is NOT the
empty handle: it allocates an external-allocation block and increments
it, so the result reports `UseCount() = 1` with a non-null block while
its boolean-validity check is false; the default-constructed handle has
no block and reports `UseCount() = 0`. -/
theorem raw_null_pointer_not_equivalent_to_empty (h : BlockHeap) (a : Addr) :
    SharedPtr.UseCount (SharedPtr.fromRaw h a none).2 (SharedPtr.fromRaw h a none).1 = 1
    ∧ SharedPtr.toBool (SharedPtr.fromRaw h a none).1 = false
    ∧ (SharedPtr.fromRaw h a none).1.block_ = some a
    ∧ SharedPtr.UseCount h SharedPtr.mkDefault = 0
    ∧ SharedPtr.mkDefault.block_ = none := by
  refine ⟨?_, rfl, rfl, rfl, rfl⟩
  simp [SharedPtr.fromRaw, SharedPtr.UseCount, hIncRef, hset,
    ControlBlockWithPtr.init, ControlBlockWithPtr.IncrementRefCounter,
    ControlBlockWithPtr.GetRefCount]
